import Mathlib

/-!
Verification of the process-supervision and startup-handshake subsystem of the
BTS inventory-management desktop application, together with two auxiliary
scripts (the production-build validator and the returns-panel submit handler).

The embedding is shallow: the JavaScript fragments that decide each property
are translated into executable Lean definitions.  String scanning mirrors
JavaScript's `String.prototype.includes`; timestamps and ports are `Nat`;
process exit codes are `Int`.
-/

set_option autoImplicit false

namespace Inventory

/-! ## JavaScript string `includes` -/

/-- Character-list version of "the pattern occurs at the head of the text". -/
def matchesAt : List Char → List Char → Bool
  | [], _ => true
  | _ :: _, [] => false
  | p :: ps, c :: cs => p == c && matchesAt ps cs

/-- Character-list version of JavaScript `text.includes(pattern)`:
the pattern occurs contiguously somewhere in the text. -/
def includesL (pat : List Char) : List Char → Bool
  | [] => matchesAt pat []
  | c :: cs => matchesAt pat (c :: cs) || includesL pat cs

/-- JavaScript `s.includes(pat)` on Lean strings. -/
def jsIncludes (s pat : String) : Bool :=
  includesL pat.toList s.toList

/-! ## Deployment mode and startup deadline

Source: `main.js` (quoted verbatim in the repository's fix report, Issue #6):
`const timeoutDuration = isDev ? 30000 : 45000;`. -/

/-- Deployment mode of the desktop application: unpacked development tree or
packaged/archived production tree. -/
inductive DeploymentMode
  | Development
  | Packaged
deriving DecidableEq, Repr

/-- The `isDev` flag of `main.js`, as a function of the deployment mode. -/
def modeIsDev : DeploymentMode → Bool
  | .Development => true
  | .Packaged => false

/-- Startup readiness deadline in milliseconds, from `main.js`:
`const timeoutDuration = isDev ? 30000 : 45000`. -/
def timeoutDuration (mode : DeploymentMode) : Nat :=
  if modeIsDev mode then 30000 else 45000

/-! ## Readiness detection on stdout lines

Source: `main.js` startup success detection (quoted verbatim in the
repository's fix report, Issue #7):
`if (output.includes(<ready token and colon>) || output.includes(<ready banner>))`. -/

/-- The `main.js` readiness detector on one stdout line: fires when the line
contains the token prefix `SERVER_READY:` or the human-readable banner
`SERVER READY AND LISTENING`. -/
def detectsReady (output : String) : Bool :=
  jsIncludes output "SERVER_READY:" || jsIncludes output "SERVER READY AND LISTENING"

/-- A line matches the spec's fixed readiness-token pattern
`<READY-TOKEN>:<port>` when it contains the concrete token `SERVER_READY:`. -/
def hasReadyToken (output : String) : Bool :=
  jsIncludes output "SERVER_READY:"

/-- Supervisor lifecycle state (spec section 3). -/
inductive SupervisorState
  | idle
  | locating
  | spawning
  | awaitingReady
  | ready
  | failed
  | shuttingDown
  | terminated
deriving DecidableEq, Repr

/-- Effect of observing one raw stdout line while awaiting readiness: the
supervisor transitions to `ready` exactly when the `main.js` detector fires
on the line; in any other state the line is only logged. -/
def observeLine (s : SupervisorState) (line : String) : SupervisorState :=
  if s = .awaitingReady ∧ detectsReady line = true then .ready else s

/-! ## Backend events and the readiness monitor -/

/-- A line parsed from the child's stdout/stderr, categorized (spec section 3),
plus the terminal exit notification of the child process. -/
inductive BackendEvent
  | info (msg : String)
  | warning (msg : String)
  | error (msg : String)
  | readySignal (port : Nat)
  | exitEvent (code : Int)
deriving DecidableEq, Repr

/-- Whether an event is the readiness signal. -/
def BackendEvent.isReadySignal : BackendEvent → Bool
  | .readySignal _ => true
  | _ => false

/-- Whether an event is the child's exit notification. -/
def BackendEvent.isExitEvent : BackendEvent → Bool
  | .exitEvent _ => true
  | _ => false

/-- A backend event with the millisecond timestamp at which it was observed. -/
abbrev TimedEvent := Nat × BackendEvent

/-- Outcome of one readiness wait. -/
inductive MonitorOutcome
  | ready (port : Nat)
  | timedOut
  | crashedBeforeReady (code : Int)
deriving DecidableEq, Repr

/-- Modelled from the spec: the body of `ReadinessMonitor.awaitReady` in
`main.js` is not under `src/`.  The monitor consumes the timestamped event
stream in emission order; the first `readySignal` strictly before the deadline
resolves `ready`, the first `exitEvent` strictly before the deadline (and
before any `readySignal`) resolves `crashedBeforeReady`, and if the deadline
elapses first the wait resolves `timedOut`. -/
def awaitReady (deadline : Nat) : List TimedEvent → MonitorOutcome
  | [] => .timedOut
  | (t, e) :: rest =>
    if deadline ≤ t then .timedOut
    else
      match e with
      | .readySignal p => .ready p
      | .exitEvent c => .crashedBeforeReady c
      | _ => awaitReady deadline rest

/-- Timestamps along the stream never decrease (stdout is line-ordered). -/
def timesMonotone : List TimedEvent → Prop
  | [] => True
  | [_] => True
  | (t, _) :: (u, f) :: rest => t ≤ u ∧ timesMonotone ((u, f) :: rest)

/-- Spec-side reading of "a ReadySignal event is observed before both the
deadline and any ExitEvent": the stream splits around a ready signal timed
strictly before the deadline, with no exit event anywhere before it. -/
def readySeenFirst (deadline : Nat) (es : List TimedEvent) : Prop :=
  ∃ pre t p rest, es = pre ++ (t, BackendEvent.readySignal p) :: rest ∧
    t < deadline ∧ ∀ q ∈ pre, q.2.isExitEvent = false

/-- Spec-side reading of "an ExitEvent occurs strictly before any ReadySignal":
the stream splits around an exit event with no ready signal at or before it. -/
def exitBeforeAnyReady (es : List TimedEvent) : Prop :=
  ∃ pre t c rest, es = pre ++ (t, BackendEvent.exitEvent c) :: rest ∧
    ∀ q ∈ pre, q.2.isReadySignal = false

/-- Spec-side reading of "neither occurs within the deadline": no ready signal
and no exit event carries a timestamp strictly before the deadline. -/
def neitherWithinDeadline (deadline : Nat) (es : List TimedEvent) : Prop :=
  ∀ q ∈ es, q.1 < deadline → q.2.isReadySignal = false ∧ q.2.isExitEvent = false

/-- Dropping the head of a stream preserves timestamp monotonicity. -/
theorem timesMonotone_tail {x : TimedEvent} {es : List TimedEvent}
    (h : timesMonotone (x :: es)) : timesMonotone es := by
  cases es with
  | nil => trivial
  | cons y ys =>
    obtain ⟨x1, x2⟩ := x
    obtain ⟨y1, y2⟩ := y
    exact h.2

/-- In a monotone stream, the head is timed no later than every later event. -/
theorem timesMonotone_head_le {t : Nat} {e : BackendEvent} {l : List TimedEvent}
    (h : timesMonotone ((t, e) :: l)) : ∀ q ∈ l, t ≤ q.1 := by
  induction l generalizing t e with
  | nil => intro q hq; cases hq
  | cons y ys ih =>
    obtain ⟨u, f⟩ := y
    intro q hq
    have h1 : t ≤ u := h.1
    rcases List.mem_cons.mp hq with hq | hq
    · rw [hq]; exact h1
    · exact le_trans h1 (ih h.2 q hq)

/-- In a monotone stream, every event before a given split point is timed no
later than the split point. -/
theorem timesMonotone_le_split {pre : List TimedEvent} {x : TimedEvent}
    {rest : List TimedEvent} (h : timesMonotone (pre ++ x :: rest)) :
    ∀ q ∈ pre, q.1 ≤ x.1 := by
  induction pre with
  | nil => intro q hq; cases hq
  | cons y ys ih =>
    intro q hq
    rcases List.mem_cons.mp hq with hq | hq
    · obtain ⟨t, e⟩ := y
      rw [hq]
      exact timesMonotone_head_le h x
        (List.mem_append_right ys (List.mem_cons_self x rest))
    · exact ih (timesMonotone_tail h) q hq

/-- Monitoring a stream whose head is timed at or after the deadline times out. -/
theorem awaitReady_cons_late {deadline u : Nat} {f : BackendEvent}
    {es : List TimedEvent} (hu : deadline ≤ u) :
    awaitReady deadline ((u, f) :: es) = .timedOut := by
  unfold awaitReady
  rw [if_pos hu]

/-- Monitoring a stream headed by an in-deadline ready signal resolves ready. -/
theorem awaitReady_cons_ready {deadline u : Nat} {p : Nat}
    {es : List TimedEvent} (hu : u < deadline) :
    awaitReady deadline ((u, .readySignal p) :: es) = .ready p := by
  unfold awaitReady
  rw [if_neg (Nat.not_le.mpr hu)]

/-- Monitoring a stream headed by an in-deadline exit event resolves crashed. -/
theorem awaitReady_cons_exit {deadline u : Nat} {c : Int}
    {es : List TimedEvent} (hu : u < deadline) :
    awaitReady deadline ((u, .exitEvent c) :: es) = .crashedBeforeReady c := by
  unfold awaitReady
  rw [if_neg (Nat.not_le.mpr hu)]

/-- An in-deadline info line is skipped by the monitor. -/
theorem awaitReady_cons_info {deadline u : Nat} {m : String}
    {es : List TimedEvent} (hu : u < deadline) :
    awaitReady deadline ((u, .info m) :: es) = awaitReady deadline es := by
  rw [awaitReady, if_neg (Nat.not_le.mpr hu)]
  all_goals simp

/-- An in-deadline warning line is skipped by the monitor. -/
theorem awaitReady_cons_warning {deadline u : Nat} {m : String}
    {es : List TimedEvent} (hu : u < deadline) :
    awaitReady deadline ((u, .warning m) :: es) = awaitReady deadline es := by
  rw [awaitReady, if_neg (Nat.not_le.mpr hu)]
  all_goals simp

/-- An in-deadline error line is skipped by the monitor (it does not resolve
the wait; it only feeds later failure classification). -/
theorem awaitReady_cons_error {deadline u : Nat} {m : String}
    {es : List TimedEvent} (hu : u < deadline) :
    awaitReady deadline ((u, .error m) :: es) = awaitReady deadline es := by
  rw [awaitReady, if_neg (Nat.not_le.mpr hu)]
  all_goals simp

/-- If the monitor resolves ready, a ready signal was observed strictly before
the deadline with no exit event before it. -/
theorem awaitReady_ready_implies {deadline : Nat} {es : List TimedEvent}
    {p : Nat} (h : awaitReady deadline es = .ready p) :
    readySeenFirst deadline es := by
  induction es with
  | nil => exact absurd h (by simp [awaitReady])
  | cons y ys ih =>
    obtain ⟨u, f⟩ := y
    by_cases hu : deadline ≤ u
    · rw [awaitReady_cons_late hu] at h
      exact absurd h (by simp)
    · have hu' : u < deadline := Nat.lt_of_not_le hu
      cases f with
      | readySignal q =>
        exact ⟨[], u, q, ys, by simp, hu', by intro x hx; cases hx⟩
      | exitEvent c =>
        rw [awaitReady_cons_exit hu'] at h
        exact absurd h (by simp)
      | info m =>
        rw [awaitReady_cons_info hu'] at h
        obtain ⟨pre, t, q, rest, hsplit, ht, hpre⟩ := ih h
        refine ⟨(u, .info m) :: pre, t, q, rest, by rw [hsplit]; rfl, ht, ?_⟩
        intro x hx
        rcases List.mem_cons.mp hx with hx | hx
        · rw [hx]; rfl
        · exact hpre x hx
      | warning m =>
        rw [awaitReady_cons_warning hu'] at h
        obtain ⟨pre, t, q, rest, hsplit, ht, hpre⟩ := ih h
        refine ⟨(u, .warning m) :: pre, t, q, rest, by rw [hsplit]; rfl, ht, ?_⟩
        intro x hx
        rcases List.mem_cons.mp hx with hx | hx
        · rw [hx]; rfl
        · exact hpre x hx
      | error m =>
        rw [awaitReady_cons_error hu'] at h
        obtain ⟨pre, t, q, rest, hsplit, ht, hpre⟩ := ih h
        refine ⟨(u, .error m) :: pre, t, q, rest, by rw [hsplit]; rfl, ht, ?_⟩
        intro x hx
        rcases List.mem_cons.mp hx with hx | hx
        · rw [hx]; rfl
        · exact hpre x hx

/-- Auxiliary induction for `awaitReady_ready_of_seen`, structured over the
events preceding the first in-deadline ready signal. -/
theorem awaitReady_ready_of_seen_aux (deadline t p : Nat)
    (rest : List TimedEvent) :
    ∀ pre : List TimedEvent,
      timesMonotone (pre ++ (t, BackendEvent.readySignal p) :: rest) →
      t < deadline →
      (∀ q ∈ pre, q.2.isExitEvent = false) →
      ∃ p', awaitReady deadline
        (pre ++ (t, BackendEvent.readySignal p) :: rest) = .ready p' := by
  intro pre
  induction pre with
  | nil =>
    intro _ ht _
    exact ⟨p, awaitReady_cons_ready ht⟩
  | cons y ys ih =>
    intro hmono ht hpre
    obtain ⟨u, f⟩ := y
    have hu : u < deadline := by
      have hle : u ≤ t :=
        timesMonotone_le_split hmono (u, f) (List.mem_cons_self _ _)
      exact Nat.lt_of_le_of_lt hle ht
    have hxf : f.isExitEvent = false := hpre (u, f) (List.mem_cons_self _ _)
    have hmono' :
        timesMonotone (ys ++ (t, BackendEvent.readySignal p) :: rest) :=
      timesMonotone_tail hmono
    have hpre' : ∀ q ∈ ys, q.2.isExitEvent = false :=
      fun q hq => hpre q (List.mem_cons_of_mem _ hq)
    cases f with
    | readySignal q => exact ⟨q, awaitReady_cons_ready hu⟩
    | exitEvent c => exact absurd hxf (by simp [BackendEvent.isExitEvent])
    | info m =>
      rw [List.cons_append, awaitReady_cons_info hu]
      exact ih hmono' ht hpre'
    | warning m =>
      rw [List.cons_append, awaitReady_cons_warning hu]
      exact ih hmono' ht hpre'
    | error m =>
      rw [List.cons_append, awaitReady_cons_error hu]
      exact ih hmono' ht hpre'

/-- If a ready signal is observed strictly before the deadline with no exit
event before it, the monitor resolves ready (with the port of the first such
signal). -/
theorem awaitReady_ready_of_seen {deadline : Nat} {es : List TimedEvent}
    (hmono : timesMonotone es) (h : readySeenFirst deadline es) :
    ∃ p, awaitReady deadline es = .ready p := by
  obtain ⟨pre, t, p, rest, hsplit, ht, hpre⟩ := h
  subst hsplit
  exact awaitReady_ready_of_seen_aux deadline t p rest pre hmono ht hpre

/-- If the monitor resolves crashed-before-ready, an exit event was observed
with no ready signal before it. -/
theorem awaitReady_crashed_implies {deadline : Nat} {es : List TimedEvent}
    {c : Int} (h : awaitReady deadline es = .crashedBeforeReady c) :
    exitBeforeAnyReady es := by
  induction es with
  | nil => exact absurd h (by simp [awaitReady])
  | cons y ys ih =>
    obtain ⟨u, f⟩ := y
    by_cases hu : deadline ≤ u
    · rw [awaitReady_cons_late hu] at h
      exact absurd h (by simp)
    · have hu' : u < deadline := Nat.lt_of_not_le hu
      cases f with
      | readySignal q =>
        rw [awaitReady_cons_ready hu'] at h
        exact absurd h (by simp)
      | exitEvent d =>
        exact ⟨[], u, d, ys, by simp, by intro x hx; cases hx⟩
      | info m =>
        rw [awaitReady_cons_info hu'] at h
        obtain ⟨pre, t, d, rest, hsplit, hpre⟩ := ih h
        refine ⟨(u, .info m) :: pre, t, d, rest, by rw [hsplit]; rfl, ?_⟩
        intro x hx
        rcases List.mem_cons.mp hx with hx | hx
        · rw [hx]; rfl
        · exact hpre x hx
      | warning m =>
        rw [awaitReady_cons_warning hu'] at h
        obtain ⟨pre, t, d, rest, hsplit, hpre⟩ := ih h
        refine ⟨(u, .warning m) :: pre, t, d, rest, by rw [hsplit]; rfl, ?_⟩
        intro x hx
        rcases List.mem_cons.mp hx with hx | hx
        · rw [hx]; rfl
        · exact hpre x hx
      | error m =>
        rw [awaitReady_cons_error hu'] at h
        obtain ⟨pre, t, d, rest, hsplit, hpre⟩ := ih h
        refine ⟨(u, .error m) :: pre, t, d, rest, by rw [hsplit]; rfl, ?_⟩
        intro x hx
        rcases List.mem_cons.mp hx with hx | hx
        · rw [hx]; rfl
        · exact hpre x hx

/-- If the monitor times out, no ready signal and no exit event was observed
strictly within the deadline. -/
theorem awaitReady_timedOut_implies {deadline : Nat} {es : List TimedEvent}
    (hmono : timesMonotone es) (h : awaitReady deadline es = .timedOut) :
    neitherWithinDeadline deadline es := by
  induction es with
  | nil => intro q hq; cases hq
  | cons y ys ih =>
    obtain ⟨u, f⟩ := y
    by_cases hu : deadline ≤ u
    · intro q hq hqt
      rcases List.mem_cons.mp hq with hq | hq
      · rw [hq] at hqt
        exact absurd hqt (Nat.not_lt.mpr hu)
      · have : u ≤ q.1 := timesMonotone_head_le hmono q hq
        exact absurd hqt (Nat.not_lt.mpr (le_trans hu this))
    · have hu' : u < deadline := Nat.lt_of_not_le hu
      cases f with
      | readySignal q =>
        rw [awaitReady_cons_ready hu'] at h
        exact absurd h (by simp)
      | exitEvent c =>
        rw [awaitReady_cons_exit hu'] at h
        exact absurd h (by simp)
      | info m =>
        rw [awaitReady_cons_info hu'] at h
        intro q hq hqt
        rcases List.mem_cons.mp hq with hq | hq
        · rw [hq]; exact ⟨rfl, rfl⟩
        · exact ih (timesMonotone_tail hmono) h q hq hqt
      | warning m =>
        rw [awaitReady_cons_warning hu'] at h
        intro q hq hqt
        rcases List.mem_cons.mp hq with hq | hq
        · rw [hq]; exact ⟨rfl, rfl⟩
        · exact ih (timesMonotone_tail hmono) h q hq hqt
      | error m =>
        rw [awaitReady_cons_error hu'] at h
        intro q hq hqt
        rcases List.mem_cons.mp hq with hq | hq
        · rw [hq]; exact ⟨rfl, rfl⟩
        · exact ih (timesMonotone_tail hmono) h q hq hqt

/-- C1: characterization of `awaitReady` on any monotonely timestamped run:
the outcome is `ready` iff a ready signal is observed before both the deadline
and any exit event; `crashedBeforeReady` only if an exit event occurs strictly
before any ready signal; `timedOut` only if neither occurs within the
deadline; the three outcomes are mutually exclusive and a second resolution of
the same run yields the same outcome. -/
theorem awaitReady_characterization (deadline : Nat) (es : List TimedEvent)
    (hmono : timesMonotone es) :
    ((∃ p, awaitReady deadline es = .ready p) ↔ readySeenFirst deadline es) ∧
    (∀ c, awaitReady deadline es = .crashedBeforeReady c →
      exitBeforeAnyReady es) ∧
    (awaitReady deadline es = .timedOut → neitherWithinDeadline deadline es) ∧
    (¬((∃ p, awaitReady deadline es = .ready p) ∧
        awaitReady deadline es = .timedOut)) ∧
    (¬((∃ p, awaitReady deadline es = .ready p) ∧
        ∃ c, awaitReady deadline es = .crashedBeforeReady c)) ∧
    (¬(awaitReady deadline es = .timedOut ∧
        ∃ c, awaitReady deadline es = .crashedBeforeReady c)) ∧
    (∀ o₁ o₂ : MonitorOutcome, awaitReady deadline es = o₁ →
      awaitReady deadline es = o₂ → o₁ = o₂) := by
  refine ⟨⟨fun ⟨p, hp⟩ => awaitReady_ready_implies hp,
      fun h => awaitReady_ready_of_seen hmono h⟩,
    fun c hc => awaitReady_crashed_implies hc,
    fun h => awaitReady_timedOut_implies hmono h, ?_, ?_, ?_, ?_⟩
  · rintro ⟨⟨p, hp⟩, ht⟩
    rw [hp] at ht
    exact absurd ht (by simp)
  · rintro ⟨⟨p, hp⟩, c, hc⟩
    rw [hp] at hc
    exact absurd hc (by simp)
  · rintro ⟨ht, c, hc⟩
    rw [ht] at hc
    exact absurd hc (by simp)
  · intro o₁ o₂ h₁ h₂
    exact h₁.symm.trans h₂

/-- Witness for C1: the run that logs one info line at 10 ms and emits the
ready signal for port 5001 at 20 ms, under a 30000 ms deadline, is monotone,
and the characterization holds of it. -/
theorem awaitReady_characterization_witness :
    ((∃ p, awaitReady 30000
        [(10, .info "starting"), (20, .readySignal 5001)] = .ready p) ↔
      readySeenFirst 30000 [(10, .info "starting"), (20, .readySignal 5001)]) ∧
    (∀ c, awaitReady 30000 [(10, .info "starting"), (20, .readySignal 5001)] =
        .crashedBeforeReady c →
      exitBeforeAnyReady [(10, .info "starting"), (20, .readySignal 5001)]) ∧
    (awaitReady 30000 [(10, .info "starting"), (20, .readySignal 5001)] =
        .timedOut →
      neitherWithinDeadline 30000
        [(10, .info "starting"), (20, .readySignal 5001)]) ∧
    (¬((∃ p, awaitReady 30000
          [(10, .info "starting"), (20, .readySignal 5001)] = .ready p) ∧
        awaitReady 30000 [(10, .info "starting"), (20, .readySignal 5001)] =
          .timedOut)) ∧
    (¬((∃ p, awaitReady 30000
          [(10, .info "starting"), (20, .readySignal 5001)] = .ready p) ∧
        ∃ c, awaitReady 30000
          [(10, .info "starting"), (20, .readySignal 5001)] =
            .crashedBeforeReady c)) ∧
    (¬(awaitReady 30000 [(10, .info "starting"), (20, .readySignal 5001)] =
          .timedOut ∧
        ∃ c, awaitReady 30000
          [(10, .info "starting"), (20, .readySignal 5001)] =
            .crashedBeforeReady c)) ∧
    (∀ o₁ o₂ : MonitorOutcome,
      awaitReady 30000 [(10, .info "starting"), (20, .readySignal 5001)] = o₁ →
      awaitReady 30000 [(10, .info "starting"), (20, .readySignal 5001)] = o₂ →
      o₁ = o₂) :=
  awaitReady_characterization 30000
    [(10, .info "starting"), (20, .readySignal 5001)]
    (by simp [timesMonotone])

/-! ## Path resolution -/

/-- Result of resolving one named resource: either the first validated
candidate, or the full list of attempted candidates with the reason each
failed. -/
inductive ResolveResult (α : Type)
  | found (p : α)
  | notFound (attempts : List (α × String))
deriving DecidableEq, Repr

/-- Modelled from the spec: the `possiblePaths` loop bodies of `main.js` and
`server.js` are not under `src/` (the instructions file only quotes the
candidate lists).  Candidates are probed in order with a kind-specific
validator; the first success wins; failures are accumulated with reasons. -/
def resolveAux {α : Type} (validate : α → Bool) (reason : α → String)
    (acc : List (α × String)) : List α → ResolveResult α
  | [] => .notFound acc
  | c :: rest =>
    if validate c then .found c
    else resolveAux validate reason (acc ++ [(c, reason c)]) rest

/-- PathResolver's `resolve(kind, candidates)`: ordered fallback with
validation, starting from an empty failure log. -/
def resolve {α : Type} (validate : α → Bool) (reason : α → String)
    (candidates : List α) : ResolveResult α :=
  resolveAux validate reason [] candidates

/-! ## Failure taxonomy and the supervisor `start` pipeline -/

/-- The closed, user-facing failure taxonomy (spec section 4.4). -/
inductive FailureCategory
  | runtimeMissing
  | portInUse
  | permissionDenied
  | dependencyMissing
  | startupTimeout
  | unknownCrash
deriving DecidableEq, Repr

/-- The structured, user-facing description of why startup did not reach
Ready; the raw message is carried alongside the category. -/
structure FailureReport where
  category : FailureCategory
  rawMessage : String
deriving DecidableEq, Repr

/-- Modelled from the spec with the two error branches quoted in the fix
report (the `EADDRINUSE` branch of `server.js` and the
`Cannot find module` branch of `main.js`): the ordered pattern table mapping
the last error line of a crashed child to a failure category; no match gives
`unknownCrash`. -/
def classify (msg : String) : FailureCategory :=
  if jsIncludes msg "EADDRINUSE" || jsIncludes msg "address already in use" then
    .portInUse
  else if jsIncludes msg "EACCES" || jsIncludes msg "permission denied" then
    .permissionDenied
  else if jsIncludes msg "Cannot find module" then
    .dependencyMissing
  else
    .unknownCrash

/-- Message of the last Error-category backend event of a run, if any. -/
def lastErrorMsg (es : List TimedEvent) : Option String :=
  (es.filterMap fun te =>
    match te.2 with
    | .error m => some m
    | _ => none).getLast?

/-- Observable side effects of one `start()` run, in order. -/
inductive SupervisorAction
  | spawnProcess
  | terminateChild
deriving DecidableEq, Repr

/-- Outcome of one `start()` run. -/
inductive StartOutcome
  | ready (port : Nat)
  | failed (report : FailureReport)
deriving DecidableEq, Repr

/-- Modelled from the spec: `ProcessSupervisor.start` of `main.js` is not
under `src/`.  It resolves the runtime binary; on total resolution failure it
fails with `runtimeMissing` without spawning; otherwise it spawns the child
and drives the readiness monitor, terminating the child on timeout and
classifying the last error line on a crash (raw message preserved). -/
def start (validate : String → Bool) (reason : String → String)
    (candidates : List String) (deadline : Nat) (events : List TimedEvent) :
    StartOutcome × List SupervisorAction :=
  match resolve validate reason candidates with
  | .notFound _ => (.failed ⟨.runtimeMissing, "Could not find node.exe"⟩, [])
  | .found _ =>
    match awaitReady deadline events with
    | .ready p => (.ready p, [.spawnProcess])
    | .timedOut =>
      (.failed ⟨.startupTimeout, "Server startup timeout"⟩,
        [.spawnProcess, .terminateChild])
    | .crashedBeforeReady _ =>
      let raw := (lastErrorMsg events).getD ""
      (.failed ⟨classify raw, raw⟩, [.spawnProcess])

end Inventory

namespace Inventory

/-- C6: the startup readiness deadline is strictly longer in packaged mode
(45000 ms) than in development mode (30000 ms). -/
theorem packaged_deadline_longer :
    timeoutDuration .Packaged > timeoutDuration .Development := by
  decide

/-- C3 counterexample: the stdout line `SERVER READY AND LISTENING` does not
contain the token `SERVER_READY:`, yet observing it while awaiting readiness
transitions the supervisor to `ready` — the code accepts a second line shape
beyond the fixed token pattern. -/
theorem banner_line_without_token_fires_ready :
    hasReadyToken "SERVER READY AND LISTENING" = false ∧
    observeLine .awaitingReady "SERVER READY AND LISTENING" = .ready := by
  constructor
  · decide
  · decide

/-- C3 (amended): the supervisor accepts exactly two line shapes as readiness
signals — lines containing `SERVER_READY:` and lines containing
`SERVER READY AND LISTENING`; a line containing neither substring never causes
a transition to `ready`. -/
theorem non_ready_line_never_fires
    (s : Inventory.SupervisorState) (line : String)
    (htok : jsIncludes line "SERVER_READY:" = false)
    (hban : jsIncludes line "SERVER READY AND LISTENING" = false) :
    observeLine s line = .ready → s = .ready := by
  intro h
  unfold observeLine at h
  unfold detectsReady at h
  rw [htok, hban] at h
  simp at h
  exact h

/-- Witness for the amended C3: the ordinary log line `Connected to database`
contains neither readiness substring, and observing it from `awaitingReady`
does not make the state `ready`. -/
theorem non_ready_line_never_fires_witness :
    jsIncludes "Connected to database" "SERVER_READY:" = false ∧
    jsIncludes "Connected to database" "SERVER READY AND LISTENING" = false ∧
    (observeLine .awaitingReady "Connected to database" = .ready →
      SupervisorState.awaitingReady = SupervisorState.ready) :=
  ⟨by decide, by decide,
    non_ready_line_never_fires .awaitingReady "Connected to database"
      (by decide) (by decide)⟩

/-- A found result of the resolver loop is a validated candidate preceded only
by candidates that failed validation. -/
theorem resolveAux_found_characterization {α : Type} (validate : α → Bool)
    (reason : α → String) :
    ∀ (cs : List α) (acc : List (α × String)) (p : α),
      resolveAux validate reason acc cs = .found p →
      validate p = true ∧
        ∃ pre rest, cs = pre ++ p :: rest ∧ ∀ q ∈ pre, validate q = false := by
  intro cs
  induction cs with
  | nil =>
    intro acc p h
    exact absurd h (by simp [resolveAux])
  | cons c rest ih =>
    intro acc p h
    by_cases hv : validate c = true
    · rw [resolveAux, if_pos hv] at h
      have hpc : c = p := by injection h
      subst hpc
      exact ⟨hv, [], rest, rfl, fun q hq => absurd hq (List.not_mem_nil q)⟩
    · have hv' : validate c = false := by
        cases hvc : validate c with
        | false => rfl
        | true => exact absurd hvc hv
      rw [resolveAux, if_neg hv] at h
      obtain ⟨hvp, pre, rest', hsplit, hpre⟩ := ih _ p h
      refine ⟨hvp, c :: pre, rest', by rw [hsplit]; rfl, ?_⟩
      intro q hq
      rcases List.mem_cons.mp hq with hq | hq
      · rw [hq]; exact hv'
      · exact hpre q hq

/-- If some candidate validates, the resolver loop finds one. -/
theorem resolveAux_complete {α : Type} (validate : α → Bool)
    (reason : α → String) :
    ∀ (cs : List α) (acc : List (α × String)),
      (∃ x ∈ cs, validate x = true) →
      ∃ p, resolveAux validate reason acc cs = .found p := by
  intro cs
  induction cs with
  | nil =>
    intro acc h
    obtain ⟨x, hx, _⟩ := h
    exact absurd hx (List.not_mem_nil x)
  | cons c rest ih =>
    intro acc h
    by_cases hv : validate c = true
    · exact ⟨c, by rw [resolveAux, if_pos hv]⟩
    · obtain ⟨x, hx, hxv⟩ := h
      rcases List.mem_cons.mp hx with hx | hx
      · exact absurd (hx ▸ hxv) hv
      · rw [resolveAux, if_neg hv]
        exact ih _ ⟨x, hx, hxv⟩

/-- C4: for every validator (hence every deployment mode's candidate list),
`PathResolver.resolve` returns the first candidate in list order that passes
the validator — a returned candidate always validates, every candidate before
it fails validation, and whenever some candidate validates a candidate is
returned (never skipped in favour of a later one). -/
theorem resolve_first_valid {α : Type} (validate : α → Bool)
    (reason : α → String) (cs : List α) :
    (∀ p, resolve validate reason cs = .found p →
      validate p = true ∧
        ∃ pre rest, cs = pre ++ p :: rest ∧ ∀ q ∈ pre, validate q = false) ∧
    ((∃ x ∈ cs, validate x = true) →
      ∃ p, resolve validate reason cs = .found p) :=
  ⟨fun p h => resolveAux_found_characterization validate reason cs [] p h,
    fun h => resolveAux_complete validate reason cs [] h⟩

/-- Witness for C4 at Scenario A of the spec: candidate list
`[missing/path, valid/path]` with the validator accepting only `valid/path`
resolves to `valid/path`, which validates and is preceded only by failing
candidates. -/
theorem resolve_first_valid_witness :
    resolve (fun s => s == "valid/path") (fun _ => "does not exist")
        ["missing/path", "valid/path"] = .found "valid/path" ∧
    ((fun s => s == "valid/path") "valid/path" = true ∧
      ∃ pre rest, ["missing/path", "valid/path"] = pre ++ "valid/path" :: rest ∧
        ∀ q ∈ pre, (fun s => s == "valid/path") q = false) :=
  ⟨by decide,
    (resolve_first_valid (fun s => s == "valid/path") (fun _ => "does not exist")
      ["missing/path", "valid/path"]).1 "valid/path" (by decide)⟩

/-- When every candidate fails validation, the resolver loop reports all of
them: one failure entry per attempted candidate. -/
theorem resolveAux_all_fail {α : Type} (validate : α → Bool)
    (reason : α → String) :
    ∀ (cs : List α) (acc : List (α × String)),
      (∀ c ∈ cs, validate c = false) →
      ∃ attempts, resolveAux validate reason acc cs = .notFound attempts ∧
        attempts.length = acc.length + cs.length := by
  intro cs
  induction cs with
  | nil =>
    intro acc _
    exact ⟨acc, rfl, by simp [resolveAux]⟩
  | cons c rest ih =>
    intro acc h
    have hc : validate c = false := h c (List.mem_cons_self _ _)
    have hrest : ∀ x ∈ rest, validate x = false :=
      fun x hx => h x (List.mem_cons_of_mem _ hx)
    rw [resolveAux, if_neg (by rw [hc]; exact Bool.false_ne_true)]
    obtain ⟨attempts, heq, hlen⟩ := ih (acc ++ [(c, reason c)]) hrest
    refine ⟨attempts, heq, ?_⟩
    rw [hlen]
    simp
    omega

/-- C5: when the runtime binary cannot be resolved (every candidate fails
validation), `start` fails with category `runtimeMissing` without ever issuing
a spawn, and the NotFound diagnostics carry one failure entry per candidate. -/
theorem start_runtimeMissing_no_spawn (validate : String → Bool)
    (reason : String → String) (cs : List String) (deadline : Nat)
    (events : List TimedEvent)
    (h : ∀ c ∈ cs, validate c = false) :
    (start validate reason cs deadline events).1 =
      .failed ⟨.runtimeMissing, "Could not find node.exe"⟩ ∧
    SupervisorAction.spawnProcess ∉
      (start validate reason cs deadline events).2 ∧
    ∃ attempts, resolve validate reason cs = .notFound attempts ∧
      attempts.length = cs.length := by
  obtain ⟨attempts, heq, hlen⟩ := resolveAux_all_fail validate reason cs [] h
  have hres : resolve validate reason cs = .notFound attempts := heq
  refine ⟨?_, ?_, attempts, hres, by rw [hlen]; simp⟩
  · unfold start
    rw [hres]
  · unfold start
    rw [hres]
    simp

/-- Witness for C5 at Scenario B of the spec: the two-element candidate list
`[missing/path1, missing/path2]` under the rejecting validator yields a
runtime-missing failure, no spawn, and exactly 2 failure entries. -/
theorem start_runtimeMissing_no_spawn_witness :
    (∀ c ∈ ["missing/path1", "missing/path2"], (fun (_ : String) => false) c = false) ∧
    ((start (fun _ => false) (fun _ => "does not exist")
        ["missing/path1", "missing/path2"] 30000 []).1 =
      .failed ⟨.runtimeMissing, "Could not find node.exe"⟩ ∧
    SupervisorAction.spawnProcess ∉
      (start (fun _ => false) (fun _ => "does not exist")
        ["missing/path1", "missing/path2"] 30000 []).2 ∧
    ∃ attempts, resolve (fun _ => false) (fun _ => "does not exist")
        ["missing/path1", "missing/path2"] = .notFound attempts ∧
      attempts.length = ["missing/path1", "missing/path2"].length) :=
  ⟨fun _ _ => rfl,
    start_runtimeMissing_no_spawn (fun _ => false) (fun _ => "does not exist")
      ["missing/path1", "missing/path2"] 30000 [] (fun _ _ => rfl)⟩

/-- The crash-pattern table never produces the timeout category. -/
theorem classify_ne_startupTimeout (msg : String) :
    classify msg ≠ .startupTimeout := by
  unfold classify
  split
  · decide
  · split
    · decide
    · split
      · decide
      · decide

/-- C2: every `start()` run whose outcome is a failure of category
`startupTimeout` issued a terminate on the spawned child, and indeed arose
from the readiness monitor timing out. -/
theorem start_timeout_terminates (validate : String → Bool)
    (reason : String → String) (cs : List String) (deadline : Nat)
    (events : List TimedEvent) (r : FailureReport)
    (h : (start validate reason cs deadline events).1 = .failed r)
    (hcat : r.category = .startupTimeout) :
    SupervisorAction.terminateChild ∈
      (start validate reason cs deadline events).2 ∧
    awaitReady deadline events = .timedOut := by
  cases hres : resolve validate reason cs with
  | notFound attempts =>
    have h1 : StartOutcome.failed
        ⟨.runtimeMissing, "Could not find node.exe"⟩ = .failed r := by
      rw [← h]
      unfold start
      rw [hres]
    have h2 : FailureReport.mk .runtimeMissing "Could not find node.exe" = r := by
      injection h1
    rw [← h2] at hcat
    exact absurd hcat (by decide)
  | found p =>
    cases hm : awaitReady deadline events with
    | ready q =>
      have h1 : StartOutcome.ready q = .failed r := by
        rw [← h]
        unfold start
        rw [hres, hm]
      exact absurd h1 (by simp)
    | timedOut =>
      have h2 : (start validate reason cs deadline events).2 =
          [.spawnProcess, .terminateChild] := by
        unfold start
        rw [hres, hm]
      rw [h2]
      exact ⟨by simp, rfl⟩
    | crashedBeforeReady c =>
      have h1 : StartOutcome.failed
          ⟨classify ((lastErrorMsg events).getD ""),
            (lastErrorMsg events).getD ""⟩ = .failed r := by
        rw [← h]
        unfold start
        rw [hres, hm]
      have h2 : FailureReport.mk (classify ((lastErrorMsg events).getD ""))
          ((lastErrorMsg events).getD "") = r := by
        injection h1
      rw [← h2] at hcat
      exact absurd hcat (classify_ne_startupTimeout _)

/-- Witness for C2 at Scenario D of the spec: a child that emits nothing under
a 30000 ms deadline produces a startup-timeout failure, and the run issued a
terminate on the child. -/
theorem start_timeout_terminates_witness :
    (start (fun _ => true) (fun _ => "") ["node.exe"] 30000 []).1 =
      .failed ⟨.startupTimeout, "Server startup timeout"⟩ ∧
    (SupervisorAction.terminateChild ∈
      (start (fun _ => true) (fun _ => "") ["node.exe"] 30000 []).2 ∧
    awaitReady 30000 ([] : List TimedEvent) = .timedOut) :=
  ⟨by decide,
    start_timeout_terminates (fun _ => true) (fun _ => "") ["node.exe"] 30000 []
      ⟨.startupTimeout, "Server startup timeout"⟩ (by decide) rfl⟩

/-- C7: the crash classification maps the last error line through the known
pattern table — address-in-use patterns to `portInUse`, permission patterns to
`permissionDenied`, the missing-module pattern to `dependencyMissing` — and
when no known pattern matches the category is `unknownCrash`; on every crashed
run the failure report preserves the raw last error message verbatim; in
particular the Scenario C run (child prints `ERROR: address already in use`,
then exits nonzero before any ready line) fails with `portInUse`. -/
theorem crash_classification (msg : String) :
    ((jsIncludes msg "EADDRINUSE" = true ∨
        jsIncludes msg "address already in use" = true) →
      classify msg = .portInUse) ∧
    (jsIncludes msg "EADDRINUSE" = false →
      jsIncludes msg "address already in use" = false →
      (jsIncludes msg "EACCES" = true ∨
        jsIncludes msg "permission denied" = true) →
      classify msg = .permissionDenied) ∧
    (jsIncludes msg "EADDRINUSE" = false →
      jsIncludes msg "address already in use" = false →
      jsIncludes msg "EACCES" = false →
      jsIncludes msg "permission denied" = false →
      jsIncludes msg "Cannot find module" = true →
      classify msg = .dependencyMissing) ∧
    (jsIncludes msg "EADDRINUSE" = false →
      jsIncludes msg "address already in use" = false →
      jsIncludes msg "EACCES" = false →
      jsIncludes msg "permission denied" = false →
      jsIncludes msg "Cannot find module" = false →
      classify msg = .unknownCrash) ∧
    (∀ (validate : String → Bool) (reason : String → String)
        (cs : List String) (deadline : Nat) (events : List TimedEvent)
        (c : Int) (p : String),
      resolve validate reason cs = .found p →
      awaitReady deadline events = .crashedBeforeReady c →
      (start validate reason cs deadline events).1 =
        .failed ⟨classify ((lastErrorMsg events).getD ""),
          (lastErrorMsg events).getD ""⟩) ∧
    ((start (fun _ => true) (fun _ => "") ["node.exe"] 30000
        [(10, .error "ERROR: address already in use"), (20, .exitEvent 1)]).1 =
      .failed ⟨.portInUse, "ERROR: address already in use"⟩) := by
  refine ⟨?_, ?_, ?_, ?_, ?_, ?_⟩
  · intro h
    unfold classify
    rw [if_pos ?_]
    rcases h with h | h
    · rw [h]; simp
    · rw [h]; simp
  · intro h1 h2 h3
    unfold classify
    rw [if_neg (by rw [h1, h2]; simp), if_pos ?_]
    rcases h3 with h | h
    · rw [h]; simp
    · rw [h]; simp
  · intro h1 h2 h3 h4 h5
    unfold classify
    rw [if_neg (by rw [h1, h2]; simp), if_neg (by rw [h3, h4]; simp),
      if_pos h5]
  · intro h1 h2 h3 h4 h5
    unfold classify
    rw [if_neg (by rw [h1, h2]; simp), if_neg (by rw [h3, h4]; simp),
      if_neg (by rw [h5]; simp)]
  · intro validate reason cs deadline events c p hres hm
    unfold start
    rw [hres, hm]
  · decide

/-- Witness for C7: a message containing `EADDRINUSE` classifies as
`portInUse`. -/
theorem crash_classification_witness :
    (jsIncludes "Error: listen EADDRINUSE: port 5001" "EADDRINUSE" = true ∨
      jsIncludes "Error: listen EADDRINUSE: port 5001"
        "address already in use" = true) ∧
    classify "Error: listen EADDRINUSE: port 5001" = .portInUse :=
  ⟨Or.inl (by decide),
    (crash_classification "Error: listen EADDRINUSE: port 5001").1
      (Or.inl (by decide))⟩

end Inventory

namespace Inventory

/-! ## Duplicate ready signals and the supervisor state machine -/

/-- Modelled from the spec: the `serverReady` guard of `main.js` is not under
`src/`.  One supervisor transition per backend event: the first ready signal
while awaiting readiness moves to `ready`, a crash while awaiting readiness
moves to `failed`; every other observation (including duplicate ready signals
once `ready`) only logs and leaves the state unchanged. -/
def stepEvent : SupervisorState → BackendEvent → SupervisorState
  | .awaitingReady, .readySignal _ => .ready
  | .awaitingReady, .exitEvent _ => .failed
  | s, _ => s

/-- Number of transitions into `ready` fired while folding an event list
through `stepEvent` from a given state. -/
def readyTransitions : SupervisorState → List BackendEvent → Nat
  | _, [] => 0
  | s, e :: rest =>
    (if s ≠ SupervisorState.ready ∧ stepEvent s e = SupervisorState.ready
      then 1 else 0) + readyTransitions (stepEvent s e) rest

/-- Once the supervisor is `ready`, no event moves it anywhere else. -/
theorem stepEvent_ready_fixed (e : BackendEvent) :
    stepEvent .ready e = .ready := by
  cases e <;> rfl

/-- From `ready`, no further event fires a ready transition. -/
theorem readyTransitions_from_ready (es : List BackendEvent) :
    readyTransitions .ready es = 0 := by
  induction es with
  | nil => rfl
  | cons e rest ih =>
    rw [readyTransitions, stepEvent_ready_fixed,
      if_neg (by intro hc; exact hc.1 rfl)]
    rw [ih]

/-- From any state, a whole run fires at most one ready transition. -/
theorem readyTransitions_le_one (es : List BackendEvent)
    (s : SupervisorState) : readyTransitions s es ≤ 1 := by
  induction es generalizing s with
  | nil => exact Nat.zero_le 1
  | cons e rest ih =>
    rw [readyTransitions]
    by_cases hr : stepEvent s e = SupervisorState.ready
    · rw [hr, readyTransitions_from_ready]
      split
      · omega
      · omega
    · rw [if_neg (by intro hc; exact hr hc.2)]
      have := ih (stepEvent s e)
      omega

/-- C8: a duplicate ready signal after the first never changes the state and
never re-fires the Ready transition — once `ready`, every event (in particular
a repeated ready signal) leaves the state `ready` and fires no transition;
from `awaitingReady` any run fires at most one ready transition; and the
concrete run in which the child emits the ready token twice (Scenario E)
fires exactly one. -/
theorem duplicate_ready_ignored (p : Nat) (es : List BackendEvent) :
    stepEvent .ready (.readySignal p) = .ready ∧
    readyTransitions .ready es = 0 ∧
    readyTransitions .awaitingReady es ≤ 1 ∧
    readyTransitions .awaitingReady
      [.readySignal 5001, .info "still logging", .readySignal 5001] = 1 :=
  ⟨stepEvent_ready_fixed _, readyTransitions_from_ready es,
    readyTransitions_le_one es .awaitingReady, by decide⟩

end Inventory

namespace Inventory

/-! ## The production-build validator (`validate-production-build.js`) -/

/-- Effect of one `check(description, condition)` call on the script's
`allChecksPassed` flag: `if (!condition) allChecksPassed = false`. -/
def checkStep (allChecksPassed condition : Bool) : Bool :=
  if !condition then false else allChecksPassed

/-- The flag after running the whole sequence of check conditions, starting
from `let allChecksPassed = true`. -/
def runChecks (conds : List Bool) : Bool :=
  conds.foldl checkStep true

/-- The script's final `process.exit(allChecksPassed ? 0 : 1)`. -/
def validatorExitCode (conds : List Bool) : Nat :=
  if runChecks conds then 0 else 1

/-- One check call conjoins its condition onto the flag. -/
theorem checkStep_eq_and (s c : Bool) : checkStep s c = (c && s) := by
  cases c <;> cases s <;> rfl

/-- Folding the check calls from any starting flag computes the conjunction of
the start flag with all conditions. -/
theorem foldl_checkStep (l : List Bool) :
    ∀ s : Bool, l.foldl checkStep s = (s && l.all (fun c => c)) := by
  induction l with
  | nil => intro s; cases s <;> rfl
  | cons c rest ih =>
    intro s
    rw [List.foldl_cons, ih (checkStep s c), checkStep_eq_and]
    cases s <;> cases c <;> simp [List.all_cons]

/-- C9: the validator exits with status 0 iff every check condition is true;
a false condition irrevocably forces the flag false (`checkStep s false =
false`), and a false flag is never reset to true by any further sequence of
checks (`foldl` from `false` stays `false`). -/
theorem validator_exit_zero_iff (conds : List Bool) (s c : Bool)
    (l : List Bool) :
    (validatorExitCode conds = 0 ↔ ∀ x ∈ conds, x = true) ∧
    checkStep s false = false ∧
    checkStep false c = false ∧
    l.foldl checkStep false = false := by
  refine ⟨?_, by cases s <;> rfl, by cases c <;> rfl, ?_⟩
  · unfold validatorExitCode runChecks
    rw [foldl_checkStep]
    constructor
    · intro h
      by_cases hall : conds.all (fun x => x) = true
      · exact fun x hx => List.all_eq_true.mp hall x hx
      · rw [if_neg (by simp [hall])] at h
        exact absurd h (by simp)
    · intro h
      rw [if_pos (by rw [Bool.true_and, List.all_eq_true]; exact h)]
  · rw [foldl_checkStep]
    rfl

/-- Witness for C9: with check conditions `[true, false, true]` the validator
exits 1 (not every condition is true), and the step/fold facts hold. -/
theorem validator_exit_zero_iff_witness :
    ((validatorExitCode [true, false, true] = 0 ↔
      ∀ x ∈ [true, false, true], x = true) ∧
    checkStep true false = false ∧
    checkStep false true = false ∧
    List.foldl checkStep false [true, true] = false) :=
  validator_exit_zero_iff [true, false, true] true true [true, true]

end Inventory

namespace Inventory

/-! ## The returns-panel submit handler (`EnhancedReturnsPanel.js`) -/

/-- The `returnedBy` form group. -/
structure ReturnedByEntry where
  name : String
  position : String
  returnDate : String
  location : String
deriving DecidableEq, Repr

/-- The `receivedBy` (and `secondReceivedBy`) form group. -/
structure ReceivedByEntry where
  name : String
  position : String
  receiveDate : String
  location : String
deriving DecidableEq, Repr

/-- The returns form state of `EnhancedReturnsPanel`. -/
structure ReturnsForm where
  rrspNo : String
  date : String
  quantity : String
  remarks : String
  returnedBy : ReturnedByEntry
  receivedBy : ReceivedByEntry
  secondReceivedBy : ReceivedByEntry
deriving DecidableEq, Repr

/-- The fields of a selected article used by `handleSubmit`. -/
structure Article where
  article : String
  property_number : String
  date_acquired : String
  unit_value : Option Int
  actual_user : String
  employee_name : String
  on_hand_per_count : Option Int
deriving DecidableEq, Repr

/-- Accumulate the leading decimal digits of a character list. -/
def digitsVal (acc : Nat) : List Char → Nat
  | [] => acc
  | ch :: rest =>
    if ch.isDigit then digitsVal (acc * 10 + (ch.toNat - 48)) rest else acc

/-- JavaScript `parseInt` (base 10) on a character list: optional sign then
leading digits; `none` models `NaN`. -/
def jsParseIntL : List Char → Option Int
  | [] => none
  | ch :: rest =>
    if ch = '-' then
      match rest with
      | [] => none
      | d :: _ =>
        if d.isDigit then some (-(digitsVal 0 rest : Int)) else none
    else if ch = '+' then
      match rest with
      | [] => none
      | d :: _ =>
        if d.isDigit then some ((digitsVal 0 rest : Int)) else none
    else if ch.isDigit then some ((digitsVal 0 (ch :: rest) : Int))
    else none

/-- JavaScript `parseInt(s)` after skipping leading spaces. -/
def jsParseInt (s : String) : Option Int :=
  jsParseIntL (s.toList.dropWhile (fun ch => ch = ' '))

/-- JavaScript `a || b` on strings: the empty string is falsy. -/
def jsOrStr (s fallback : String) : String :=
  if s == "" then fallback else s

/-- The `if (returnQuantity <= 0)` guard; a `NaN` quantity does not trigger it
(`NaN <= 0` is false in JavaScript). -/
def quantityGuard (rq : Option Int) : Bool :=
  match rq with
  | some v => decide (v ≤ 0)
  | none => false

/-- The `if (selectedArticle.on_hand_per_count && returnQuantity >
selectedArticle.on_hand_per_count)` overstock test; a stock of 0 or `null`
is falsy and a `NaN` comparison is false. -/
def overstockGuard (stock rq : Option Int) : Bool :=
  match stock, rq with
  | some s, some v => (!decide (s = 0)) && decide (v > s)
  | _, _ => false

/-- The required-fields guard of `handleSubmit`: any of the listed fields
being empty (falsy) aborts the submit. -/
def requiredMissing (form : ReturnsForm) : Bool :=
  form.rrspNo == "" || form.date == "" ||
  form.returnedBy.name == "" || form.returnedBy.position == "" ||
  form.returnedBy.returnDate == "" ||
  form.receivedBy.name == "" || form.receivedBy.position == "" ||
  form.receivedBy.receiveDate == ""

/-- The JSON payload of the POST to `/add-receipt` (the fields derived from
the form and the selected article). -/
structure ReturnPayload where
  rrspNo : String
  date : String
  description : String
  quantity : Option Int
  icsNo : String
  dateAcquired : String
  amount : Int
  endUser : String
  remarks : String
deriving DecidableEq, Repr

/-- Whether `handleSubmit` issued the POST, and with what payload. -/
inductive SubmitResult
  | noRequest
  | posted (payload : ReturnPayload)
deriving DecidableEq, Repr

/-- The form state installed by `handleBackToSearch` (called after a
successful POST response): all fields cleared, dates set to today. -/
def initialReturnsForm (today : String) : ReturnsForm :=
  ⟨"", today, "1", "", ⟨"", "", today, ""⟩, ⟨"", "", today, ""⟩,
    ⟨"", "", "", ""⟩⟩

/-- `EnhancedReturnsPanel.handleSubmit`: validation guards in source order
(article selected, positive parsed quantity, overstock confirmation, required
fields), then the POST; `confirmOverstock` models the user's answer to the
overstock `window.confirm`, and `respOk` models `response.ok`, after which
`handleBackToSearch` resets the form. -/
def handleSubmit (today : String) (selectedArticle : Option Article)
    (form : ReturnsForm) (confirmOverstock respOk : Bool) :
    SubmitResult × ReturnsForm :=
  match selectedArticle with
  | none => (.noRequest, form)
  | some art =>
    if quantityGuard (jsParseInt form.quantity) then (.noRequest, form)
    else if overstockGuard art.on_hand_per_count (jsParseInt form.quantity)
        && !confirmOverstock then (.noRequest, form)
    else if requiredMissing form then (.noRequest, form)
    else
      (.posted ⟨form.rrspNo, form.date, art.article,
          jsParseInt form.quantity,
          jsOrStr art.property_number "N/A",
          jsOrStr art.date_acquired today,
          (art.unit_value).getD 0,
          jsOrStr (jsOrStr art.actual_user art.employee_name) "Unknown",
          form.remarks⟩,
        if respOk then initialReturnsForm today else form)

/-- C10: `handleSubmit` issues no POST to `/add-receipt` and leaves the form
state unchanged whenever no article is selected, or the parsed quantity is a
number ≤ 0, or any required field (rrspNo, date, returnedBy name/position/
returnDate, receivedBy name/position/receiveDate) is empty. -/
theorem returns_submit_guards (today : String) (sel : Option Article)
    (form : ReturnsForm) (confirmB respOk : Bool)
    (h : sel = none ∨
      (∃ v, jsParseInt form.quantity = some v ∧ v ≤ 0) ∨
      form.rrspNo = "" ∨ form.date = "" ∨
      form.returnedBy.name = "" ∨ form.returnedBy.position = "" ∨
      form.returnedBy.returnDate = "" ∨
      form.receivedBy.name = "" ∨ form.receivedBy.position = "" ∨
      form.receivedBy.receiveDate = "") :
    handleSubmit today sel form confirmB respOk = (.noRequest, form) := by
  cases sel with
  | none => rfl
  | some art =>
    rcases h with h | ⟨v, hv, hle⟩ | hf | hf | hf | hf | hf | hf | hf | hf
    · exact absurd h (by simp)
    · have hg : quantityGuard (jsParseInt form.quantity) = true := by
        rw [hv]
        simp [quantityGuard, hle]
      unfold handleSubmit
      rw [hg]
      simp
    all_goals
      have hr : requiredMissing form = true := by
        simp [requiredMissing, hf]
      unfold handleSubmit
      rw [hr]
      simp [ite_self]

/-- Witness for C10: with no article selected, a filled form is returned
unchanged and no POST is issued. -/
theorem returns_submit_guards_witness :
    ((none : Option Article) = none ∨
      (∃ v, jsParseInt "1" = some v ∧ v ≤ 0) ∨
      ("RRSP-1" : String) = "" ∨ ("2026-01-05" : String) = "" ∨
      ("Ana" : String) = "" ∨ ("Clerk" : String) = "" ∨
      ("2026-01-05" : String) = "" ∨
      ("Ben" : String) = "" ∨ ("Custodian" : String) = "" ∨
      ("2026-01-05" : String) = "") ∧
    handleSubmit "2026-01-05" none
      ⟨"RRSP-1", "2026-01-05", "1", "",
        ⟨"Ana", "Clerk", "2026-01-05", ""⟩,
        ⟨"Ben", "Custodian", "2026-01-05", ""⟩,
        ⟨"", "", "", ""⟩⟩ true true =
      (.noRequest,
        ⟨"RRSP-1", "2026-01-05", "1", "",
          ⟨"Ana", "Clerk", "2026-01-05", ""⟩,
          ⟨"Ben", "Custodian", "2026-01-05", ""⟩,
          ⟨"", "", "", ""⟩⟩) :=
  ⟨Or.inl rfl,
    returns_submit_guards "2026-01-05" none
      ⟨"RRSP-1", "2026-01-05", "1", "",
        ⟨"Ana", "Clerk", "2026-01-05", ""⟩,
        ⟨"Ben", "Custodian", "2026-01-05", ""⟩,
        ⟨"", "", "", ""⟩⟩ true true (Or.inl rfl)⟩

end Inventory
